import Mathlib

/-!
  Verification development for the Bomberman-style tile game in
  `src/index.ts` of the `bombguy` repository.

  The embedding is a direct translation of the TypeScript source:

  * `Tile` is the closed set of tile classes; the virtual methods
    `isAir`, `isWalkable`, `isExplodable`, `onDestroy`, `update`,
    `nextDirection` and `onPlayerContact` become total functions on
    `Tile` whose per-variant branches mirror the per-class overrides.
  * The grid `Tile[][]` becomes `List (List Tile)`; coordinates are
    integers (TypeScript numbers may go negative through `x - 1` etc.),
    and `getTile` / `setTile` / `isValid` follow the source's
    bounds-checked access with the `Unbreakable` sentinel.
  * `Math.random() < 0.1` inside `Stone.onDestroy` is the only source of
    randomness; it is modelled by a Boolean stream `rng : Nat → Bool`
    together with a counter threaded through every operation that may
    consume a random draw (`true` plays the powerup branch).
  * `GameMap.updateTiles` takes a shallow copy (`currentState`) of the
    tile table and invokes `update` on the snapshot's tiles while the
    live grid receives the writes; the loop bounds are the grid's
    dimensions, which no operation changes (all writes go through
    `setTile`, which preserves the shape), so they are read off the
    pass's initial grid.
-/

namespace Bombguy

/-- The closed set of tile classes of `src/index.ts`. -/
inductive Tile where
  | air
  | unbreakable
  | stone
  | extraBombPowerup
  | bomb
  | bombClose
  | bombReallyClose
  | fire
  | monsterUp
  | monsterRight
  | monsterDown
  | monsterLeft
  | tmpMonsterRight
  | tmpMonsterDown
  deriving DecidableEq, Repr

/-- `isAir`: overridden to `true` only by `Air`. -/
def Tile.isAir : Tile → Bool
  | .air => true
  | _ => false

/-- `isWalkable`: `BaseTile` default `false`; overridden to `true` by
`Air`, `Fire` and `ExtraBombPowerup`. -/
def Tile.isWalkable : Tile → Bool
  | .air => true
  | .fire => true
  | .extraBombPowerup => true
  | _ => false

/-- `isExplodable`: `BaseTile` default `true`; overridden to `false` by
`Unbreakable`, `ExtraBombPowerup`, `Bomb`, `BombClose` and
`BombReallyClose`. -/
def Tile.isExplodable : Tile → Bool
  | .unbreakable => false
  | .extraBombPowerup => false
  | .bomb => false
  | .bombClose => false
  | .bombReallyClose => false
  | _ => true

/-- The monster direction variants (the `BaseMonster` subclasses,
including the transient arrival states). -/
def Tile.isMonster : Tile → Bool
  | .monsterUp => true
  | .monsterRight => true
  | .monsterDown => true
  | .monsterLeft => true
  | .tmpMonsterRight => true
  | .tmpMonsterDown => true
  | _ => false

/-- `nextDirection` as defined on each monster class:
`Right → Down → Left → Up → Right`, and the transient states return the
next facing of their stable counterpart.  The source declares it only on
monster classes (abstract on `BaseMonster`); the catch-all branch is
never reached by the translated code. -/
def Tile.nextDirection : Tile → Tile
  | .monsterRight => .monsterDown
  | .monsterDown => .monsterLeft
  | .monsterLeft => .monsterUp
  | .monsterUp => .monsterRight
  | .tmpMonsterRight => .monsterDown
  | .tmpMonsterDown => .monsterLeft
  | t => t

/-- Which tile classes declare their own `onDestroy` method, rather than
inheriting `BaseTile.onDestroy` (the empty method); monsters inherit
`BaseMonster`'s override.  `Air`, `BombReallyClose` and `Fire` are the
classes with no override anywhere between them and `BaseTile`. -/
def overridesOnDestroy : Tile → Bool
  | .unbreakable => true
  | .stone => true
  | .extraBombPowerup => true
  | .bomb => true
  | .bombClose => true
  | .monsterUp => true
  | .monsterRight => true
  | .monsterDown => true
  | .monsterLeft => true
  | .tmpMonsterRight => true
  | .tmpMonsterDown => true
  | _ => false

/-- The `Tile[][]` grid, row-major: outer index `y`, inner index `x`. -/
abbrev Grid := List (List Tile)

/-- `GameMap.isValid`. -/
def isValid (g : Grid) (x y : Int) : Bool :=
  0 ≤ y && y < (g.length : Int) && 0 ≤ x && x < ((g.getD y.toNat []).length : Int)

/-- `GameMap.getTile`: bounds-checked read, `Unbreakable` sentinel when
out of range. -/
def getTile (g : Grid) (x y : Int) : Tile :=
  if isValid g x y then (g.getD y.toNat []).getD x.toNat Tile.unbreakable
  else Tile.unbreakable

/-- `GameMap.setTile`: bounds-checked write, silently ignored when out of
range. -/
def setTile (g : Grid) (x y : Int) (t : Tile) : Grid :=
  if isValid g x y then g.set y.toNat ((g.getD y.toNat []).set x.toNat t)
  else g

/-! ### List lemmas for `set`/`getD` -/

theorem list_set_of_length_le {α : Type} (a : α) :
    ∀ (l : List α) (i : Nat), l.length ≤ i → l.set i a = l := by
  intro l
  induction l with
  | nil => intro i _; rfl
  | cons b l ih =>
    intro i h
    cases i with
    | zero => simp at h
    | succ j =>
      simp only [List.set]
      rw [ih j (by simpa using h)]

theorem list_getD_set_ne {α : Type} (a d : α) :
    ∀ (l : List α) (i j : Nat), i ≠ j → (l.set i a).getD j d = l.getD j d := by
  intro l
  induction l with
  | nil => intro i j _; rfl
  | cons b l ih =>
    intro i j hij
    cases i with
    | zero =>
      cases j with
      | zero => exact absurd rfl hij
      | succ j => rfl
    | succ i =>
      cases j with
      | zero => rfl
      | succ j =>
        simp only [List.set, List.getD_cons_succ]
        exact ih i j (by omega)

theorem list_getD_set_self {α : Type} (a d : α) :
    ∀ (l : List α) (i : Nat), i < l.length → (l.set i a).getD i d = a := by
  intro l
  induction l with
  | nil => intro i h; simp at h
  | cons b l ih =>
    intro i h
    cases i with
    | zero => rfl
    | succ i =>
      simp only [List.set, List.getD_cons_succ]
      exact ih i (by simpa using h)

/-! ### Shape preservation and the `getTile`/`setTile` exchange law -/

theorem length_setTile (g : Grid) (x y : Int) (t : Tile) :
    (setTile g x y t).length = g.length := by
  unfold setTile
  split
  · exact List.length_set _ _ _
  · rfl

theorem rowlen_setTile (g : Grid) (x y : Int) (t : Tile) (n : Nat) :
    ((setTile g x y t).getD n []).length = (g.getD n []).length := by
  unfold setTile
  split
  · rename_i hv
    by_cases hn : y.toNat = n
    · subst hn
      have hy : y.toNat < g.length := by
        unfold isValid at hv
        simp only [Bool.and_eq_true, decide_eq_true_eq] at hv
        omega
      rw [list_getD_set_self _ _ _ _ hy]
      exact List.length_set _ _ _
    · rw [list_getD_set_ne _ _ _ _ _ hn]
  · rfl

theorem isValid_setTile (g : Grid) (x y x' y' : Int) (t : Tile) :
    isValid (setTile g x y t) x' y' = isValid g x' y' := by
  unfold isValid
  rw [length_setTile, rowlen_setTile]

/-- Full characterisation of a bounds-checked write followed by a
bounds-checked read. -/
theorem getTile_setTile (g : Grid) (x y x' y' : Int) (t : Tile) :
    getTile (setTile g x y t) x' y' =
      if x' = x ∧ y' = y ∧ isValid g x y = true then t else getTile g x' y' := by
  by_cases hv : isValid g x y = true
  · have hset : setTile g x y t = g.set y.toNat ((g.getD y.toNat []).set x.toNat t) := by
      unfold setTile; rw [if_pos hv]
    have hbounds : 0 ≤ y ∧ y < (g.length : Int) ∧ 0 ≤ x ∧
        x < ((g.getD y.toNat []).length : Int) := by
      unfold isValid at hv
      simp only [Bool.and_eq_true, decide_eq_true_eq] at hv
      exact ⟨hv.1.1.1, hv.1.1.2, hv.1.2, hv.2⟩
    by_cases heq : x' = x ∧ y' = y
    · obtain ⟨hx, hy⟩ := heq
      rw [if_pos ⟨hx, hy, hv⟩]
      unfold getTile
      rw [isValid_setTile, hx, hy, if_pos hv, hset]
      have hylt : y.toNat < g.length := by omega
      rw [list_getD_set_self _ _ _ _ hylt]
      have hxlt : x.toNat < (g.getD y.toNat []).length := by omega
      exact list_getD_set_self _ _ _ _ hxlt
    · rw [if_neg (by tauto)]
      unfold getTile
      rw [isValid_setTile]
      by_cases hv' : isValid g x' y' = true
      · rw [if_pos hv', if_pos hv', hset]
        have hb' : 0 ≤ y' ∧ y' < (g.length : Int) ∧ 0 ≤ x' ∧
            x' < ((g.getD y'.toNat []).length : Int) := by
          unfold isValid at hv'
          simp only [Bool.and_eq_true, decide_eq_true_eq] at hv'
          exact ⟨hv'.1.1.1, hv'.1.1.2, hv'.1.2, hv'.2⟩
        by_cases hyy : y' = y
        · have hxx : ¬(x' = x) := by tauto
          have hylt : y.toNat < g.length := by omega
          rw [hyy, list_getD_set_self _ _ _ _ hylt]
          exact list_getD_set_ne _ _ _ _ _ (by omega)
        · rw [list_getD_set_ne _ _ _ _ _ (by omega)]
      · rw [if_neg hv', if_neg hv']
  · have hset : setTile g x y t = g := by unfold setTile; rw [if_neg hv]
    rw [hset, if_neg (by tauto)]

/-- A read that yields anything other than the sentinel was in bounds. -/
theorem isValid_of_getTile_ne_sentinel (g : Grid) (x y : Int)
    (h : getTile g x y ≠ Tile.unbreakable) : isValid g x y = true := by
  by_contra hv
  unfold getTile at h
  rw [if_neg hv] at h
  exact h rfl

/-! ### Destruction, explosion, movement and the tick pass -/

/-- `onDestroy`, dispatched over the tile classes.  `BaseTile.onDestroy`
is an empty method, and `Unbreakable`, `ExtraBombPowerup`, `Bomb` and
`BombClose` override it with further empty methods; `Stone` rolls
`Math.random() < 0.1` for a powerup (one draw consumed from `rng` at the
current counter) and otherwise drops `Fire`; `BaseMonster` drops
`Fire`. -/
def onDestroy (rng : Nat → Bool) (t : Tile) (g : Grid) (c : Nat) (x y : Int) :
    Grid × Nat :=
  match t with
  | .stone =>
      (setTile g x y (if rng c then Tile.extraBombPowerup else Tile.fire), c + 1)
  | .monsterUp | .monsterRight | .monsterDown | .monsterLeft
  | .tmpMonsterRight | .tmpMonsterDown => (setTile g x y Tile.fire, c)
  | _ => (g, c)

/-- `GameMap.tryExplodeTile`: destroy the tile at `(x, y)` only if it is
explodable. -/
def tryExplodeTile (rng : Nat → Bool) (g : Grid) (c : Nat) (x y : Int) :
    Grid × Nat :=
  let t := getTile g x y
  if t.isExplodable then onDestroy rng t g c x y else (g, c)

/-- `GameMap.explode`: destroy the origin unconditionally, then probe the
four axis-aligned neighbours in the source's order (up, down, left,
right). -/
def explode (rng : Nat → Bool) (g : Grid) (c : Nat) (x y : Int) : Grid × Nat :=
  let s1 := onDestroy rng (getTile g x y) g c x y
  let s2 := tryExplodeTile rng s1.1 s1.2 x (y - 1)
  let s3 := tryExplodeTile rng s2.1 s2.2 x (y + 1)
  let s4 := tryExplodeTile rng s3.1 s3.2 (x - 1) y
  tryExplodeTile rng s4.1 s4.2 (x + 1) y

/-- `BaseMonster.tryMove`: the destination is read from the grid the move
acts on (the live grid during a pass); when it is `Air`, the source cell
is cleared and the destination receives the arrival state. -/
def tryMove (g : Grid) (x y dx dy : Int) (nextStateIfMoved : Tile) :
    Option Grid :=
  if (getTile g (x + dx) (y + dy)).isAir then
    some (setTile (setTile g x y Tile.air) (x + dx) (y + dy) nextStateIfMoved)
  else none

/-- The shared shape of the four `move` overrides: on a failed `tryMove`,
overwrite the current cell with the next facing. -/
def monsterMove (g : Grid) (x y dx dy : Int) (moved blocked : Tile) : Grid :=
  match tryMove g x y dx dy moved with
  | some g' => g'
  | none => setTile g x y blocked

/-- `Tile.update`, dispatched over the tile classes: fuse advancement,
explosion trigger, fire decay, transient-monster resolution and monster
movement; empty for `Air`, `Unbreakable`, `Stone` and the powerup. -/
def updateTile (rng : Nat → Bool) (t : Tile) (g : Grid) (c : Nat) (x y : Int) :
    Grid × Nat :=
  match t with
  | .bomb => (setTile g x y Tile.bombClose, c)
  | .bombClose => (setTile g x y Tile.bombReallyClose, c)
  | .bombReallyClose => explode rng g c x y
  | .fire => (setTile g x y Tile.air, c)
  | .tmpMonsterDown => (setTile g x y Tile.monsterDown, c)
  | .tmpMonsterRight => (setTile g x y Tile.monsterRight, c)
  | .monsterRight =>
      (monsterMove g x y 1 0 Tile.tmpMonsterRight Tile.monsterRight.nextDirection, c)
  | .monsterDown =>
      (monsterMove g x y 0 1 Tile.tmpMonsterDown Tile.monsterDown.nextDirection, c)
  | .monsterLeft =>
      (monsterMove g x y (-1) 0 Tile.monsterLeft Tile.monsterLeft.nextDirection, c)
  | .monsterUp =>
      (monsterMove g x y 0 (-1) Tile.monsterUp Tile.monsterUp.nextDirection, c)
  | _ => (g, c)

/-- The row-major cell positions of a grid: `y` over the rows, `x` over
each row's cells (the loop bounds of `updateTiles`). -/
def gridPositions (g : Grid) : List (Int × Int) :=
  ((List.range g.length).map fun y : Nat =>
    (List.range (g.getD y []).length).map fun x : Nat =>
      ((x : Int), (y : Int))).flatten

/-- The body of `GameMap.updateTiles`: walk the positions, at each one
invoking the update of the tile the snapshot `snap` holds there, against
the evolving live grid. -/
def runUpdates (rng : Nat → Bool) (snap : Grid) :
    List (Int × Int) → Grid × Nat → Grid × Nat
  | [], s => s
  | p :: rest, (g, c) =>
      runUpdates rng snap rest (updateTile rng (getTile snap p.1 p.2) g c p.1 p.2)

/-- `GameMap.updateTiles`: snapshot the tile table (`currentState`), then
run every snapshot tile's update against the live grid. -/
def updateTiles (rng : Nat → Bool) (g : Grid) (c : Nat) : Grid × Nat :=
  runUpdates rng g (gridPositions g) (g, c)

/-! ### The simultaneous pass the specification describes

Modelled from the spec: §4.5 states that `updateTiles` "guarantees every
tile's transition decision is based on the pre-tick world state", i.e.
every read a transition performs while deciding what to do (a monster's
`isAir` probe of its destination, `explode`'s `isExplodable` probes)
consults the pre-tick snapshot, while writes land in the live grid.  The
`Sim` definitions below realise exactly that reading discipline; they are
the comparison point for the refinement claim, not a translation of the
source. -/

/-- Modelled from the spec: `tryMove` whose occupancy decision reads the
pre-tick snapshot `snap` while the writes go to the live grid `g`. -/
def tryMoveSim (snap g : Grid) (x y dx dy : Int) (nextStateIfMoved : Tile) :
    Option Grid :=
  if (getTile snap (x + dx) (y + dy)).isAir then
    some (setTile (setTile g x y Tile.air) (x + dx) (y + dy) nextStateIfMoved)
  else none

/-- Modelled from the spec: blocked-turn fallback over `tryMoveSim`. -/
def monsterMoveSim (snap g : Grid) (x y dx dy : Int) (moved blocked : Tile) :
    Grid :=
  match tryMoveSim snap g x y dx dy moved with
  | some g' => g'
  | none => setTile g x y blocked

/-- Modelled from the spec: `tryExplodeTile` whose explodability probe
reads the snapshot. -/
def tryExplodeTileSim (rng : Nat → Bool) (snap g : Grid) (c : Nat) (x y : Int) :
    Grid × Nat :=
  let t := getTile snap x y
  if t.isExplodable then onDestroy rng t g c x y else (g, c)

/-- Modelled from the spec: `explode` with snapshot reads. -/
def explodeSim (rng : Nat → Bool) (snap g : Grid) (c : Nat) (x y : Int) :
    Grid × Nat :=
  let s1 := onDestroy rng (getTile snap x y) g c x y
  let s2 := tryExplodeTileSim rng snap s1.1 s1.2 x (y - 1)
  let s3 := tryExplodeTileSim rng snap s2.1 s2.2 x (y + 1)
  let s4 := tryExplodeTileSim rng snap s3.1 s3.2 (x - 1) y
  tryExplodeTileSim rng snap s4.1 s4.2 (x + 1) y

/-- Modelled from the spec: per-tile update with all decisions reading
the snapshot. -/
def updateTileSim (rng : Nat → Bool) (snap : Grid) (t : Tile) (g : Grid)
    (c : Nat) (x y : Int) : Grid × Nat :=
  match t with
  | .bomb => (setTile g x y Tile.bombClose, c)
  | .bombClose => (setTile g x y Tile.bombReallyClose, c)
  | .bombReallyClose => explodeSim rng snap g c x y
  | .fire => (setTile g x y Tile.air, c)
  | .tmpMonsterDown => (setTile g x y Tile.monsterDown, c)
  | .tmpMonsterRight => (setTile g x y Tile.monsterRight, c)
  | .monsterRight =>
      (monsterMoveSim snap g x y 1 0 Tile.tmpMonsterRight Tile.monsterRight.nextDirection, c)
  | .monsterDown =>
      (monsterMoveSim snap g x y 0 1 Tile.tmpMonsterDown Tile.monsterDown.nextDirection, c)
  | .monsterLeft =>
      (monsterMoveSim snap g x y (-1) 0 Tile.monsterLeft Tile.monsterLeft.nextDirection, c)
  | .monsterUp =>
      (monsterMoveSim snap g x y 0 (-1) Tile.monsterUp Tile.monsterUp.nextDirection, c)
  | _ => (g, c)

/-- Modelled from the spec: the pass driver with snapshot decisions. -/
def runUpdatesSim (rng : Nat → Bool) (snap : Grid) :
    List (Int × Int) → Grid × Nat → Grid × Nat
  | [], s => s
  | p :: rest, (g, c) =>
      runUpdatesSim rng snap rest
        (updateTileSim rng snap (getTile snap p.1 p.2) g c p.1 p.2)

/-- Modelled from the spec: the simultaneous update pass, in which every
tile's transition decision reads the pre-tick snapshot. -/
def updateTilesSim (rng : Nat → Bool) (g : Grid) (c : Nat) : Grid × Nat :=
  runUpdatesSim rng g (gridPositions g) (g, c)

/-- A fixed all-`false` random stream: every stone roll yields `Fire`. -/
def rngFalse : Nat → Bool := fun _ => false

/-! ### Player and game orchestration -/

/-- The `Player` class: grid position and bomb inventory (the grid itself
is passed to the operations rather than stored). -/
structure Player where
  x : Int
  y : Int
  bombCount : Int
  deriving DecidableEq, Repr

/-- `Player.move`: step by `(dx, dy)` when the destination tile is
walkable, otherwise stay. -/
def Player.move (p : Player) (g : Grid) (dx dy : Int) : Player :=
  if (getTile g (p.x + dx) (p.y + dy)).isWalkable then
    { p with x := p.x + dx, y := p.y + dy }
  else p

/-- `Player.placeBomb`: write a `Bomb` at the player's cell when a bomb
is available and the cell is `Air`; the method touches only the map. -/
def placeBomb (p : Player) (g : Grid) : Grid :=
  if 0 < p.bombCount ∧ (getTile g p.x p.y).isAir = true then
    setTile g p.x p.y Tile.bomb
  else g

/-- The input command values (`UpInput` … `PlaceBombInput`). -/
inductive Input where
  | up
  | down
  | left
  | right
  | placeBomb
  deriving DecidableEq, Repr

/-- The whole mutable state of a `Game`: map, player, the `GameState`
tick/game-over bookkeeping, the pending input stack (most recent first,
matching `InputHandler`'s push/pop) and the random-draw counter. -/
structure GameSt where
  grid : Grid
  player : Player
  delay : Int
  initialDelay : Int
  gameOver : Bool
  tickReady : Bool
  inputs : List Input
  ctr : Nat
  deriving DecidableEq, Repr

/-- `Input.handle`: dispatch one command to the player. -/
def handleInput (i : Input) (s : GameSt) : GameSt :=
  match i with
  | .up => { s with player := s.player.move s.grid 0 (-1) }
  | .down => { s with player := s.player.move s.grid 0 1 }
  | .left => { s with player := s.player.move s.grid (-1) 0 }
  | .right => { s with player := s.player.move s.grid 1 0 }
  | .placeBomb => { s with grid := placeBomb s.player s.grid }

/-- The `while` loop of `Game.handleInputs`: pop and handle commands
until the stack is empty or game over is observed. -/
def drainInputs : List Input → GameSt → GameSt
  | [], s => s
  | i :: rest, s =>
      if s.gameOver then { s with inputs := i :: rest }
      else drainInputs rest (handleInput i s)

/-- `Game.handleInputs`. -/
def handleInputs (s : GameSt) : GameSt :=
  drainInputs s.inputs { s with inputs := [] }

/-- `GameState.update`: clear `tickReady`, decrement the delay, and arm a
tick when it reaches zero. -/
def gstateUpdate (s : GameSt) : GameSt :=
  if s.delay - 1 ≤ 0 then
    { s with delay := s.initialDelay, tickReady := true }
  else { s with delay := s.delay - 1, tickReady := false }

/-- `onPlayerContact`, dispatched over the tile classes: `Fire` and every
monster end the game; the powerup grants a bomb and clears its cell;
empty elsewhere. -/
def onPlayerContact (t : Tile) (s : GameSt) (x y : Int) : GameSt :=
  match t with
  | .fire => { s with gameOver := true }
  | .monsterUp | .monsterRight | .monsterDown | .monsterLeft
  | .tmpMonsterRight | .tmpMonsterDown => { s with gameOver := true }
  | .extraBombPowerup =>
      { s with player := { s.player with bombCount := s.player.bombCount + 1 },
               grid := setTile s.grid x y Tile.air }
  | _ => s

/-- `Player.checkCollision`: let the player's current tile act on the
game. -/
def checkCollision (s : GameSt) : GameSt :=
  onPlayerContact (getTile s.grid s.player.x s.player.y) s s.player.x s.player.y

/-- `Game.update` (one frame's non-drawing work), with the tick pass run
only when the delay has elapsed. -/
def updateGame (rng : Nat → Bool) (s : GameSt) : GameSt :=
  let s1 := handleInputs s
  let s2 := gstateUpdate s1
  let s3 :=
    if s2.tickReady then
      let r := updateTiles rng s2.grid s2.ctr
      { s2 with grid := r.1, ctr := r.2 }
    else s2
  checkCollision s3

/-- One iteration of `Game.gameLoop` without the drawing: the update runs
only while the game is not over (drawing never mutates the state). -/
def frame (rng : Nat → Bool) (s : GameSt) : GameSt :=
  if s.gameOver then s else updateGame rng s

/-! ### Frame lemmas for destruction and explosion -/

theorem getTile_onDestroy_ne (rng : Nat → Bool) (t : Tile) (g : Grid) (c : Nat)
    (x y x' y' : Int) (h : ¬(x' = x ∧ y' = y)) :
    getTile (onDestroy rng t g c x y).1 x' y' = getTile g x' y' := by
  cases t <;> simp only [onDestroy] <;>
    first
    | rfl
    | rw [getTile_setTile, if_neg (by tauto)]

theorem isValid_onDestroy (rng : Nat → Bool) (t : Tile) (g : Grid) (c : Nat)
    (x y a b : Int) :
    isValid (onDestroy rng t g c x y).1 a b = isValid g a b := by
  cases t <;> simp only [onDestroy] <;>
    first
    | rfl
    | rw [isValid_setTile]

theorem getTile_tryExplodeTile_ne (rng : Nat → Bool) (g : Grid) (c : Nat)
    (x y x' y' : Int) (h : ¬(x' = x ∧ y' = y)) :
    getTile (tryExplodeTile rng g c x y).1 x' y' = getTile g x' y' := by
  simp only [tryExplodeTile]
  split
  · exact getTile_onDestroy_ne rng _ g c x y x' y' h
  · rfl

theorem tryExplodeTile_not_explodable (rng : Nat → Bool) (g : Grid) (c : Nat)
    (x y : Int) (h : (getTile g x y).isExplodable = false) :
    tryExplodeTile rng g c x y = (g, c) := by
  simp only [tryExplodeTile, h]
  rfl

theorem isMonster_ne_sentinel (t : Tile) (h : t.isMonster = true) :
    t ≠ Tile.unbreakable := by
  intro hq
  rw [hq] at h
  simp [Tile.isMonster] at h

theorem isMonster_isExplodable (t : Tile) (h : t.isMonster = true) :
    t.isExplodable = true := by
  cases t <;> simp_all [Tile.isMonster, Tile.isExplodable]

theorem getTile_tryExplodeTile_monster (rng : Nat → Bool) (g : Grid) (c : Nat)
    (x y : Int) (h : (getTile g x y).isMonster = true) :
    getTile (tryExplodeTile rng g c x y).1 x y = Tile.fire := by
  have hval : isValid g x y = true :=
    isValid_of_getTile_ne_sentinel g x y (isMonster_ne_sentinel _ h)
  simp only [tryExplodeTile, isMonster_isExplodable _ h, if_true]
  cases hq : getTile g x y <;> rw [hq] at h <;>
    first
    | exact Bool.noConfusion h
    | (simp only [onDestroy]
       rw [getTile_setTile, if_pos ⟨rfl, rfl, hval⟩])

theorem getTile_tryExplodeTile_stone (rng : Nat → Bool) (g : Grid) (c : Nat)
    (x y : Int) (h : getTile g x y = Tile.stone) :
    getTile (tryExplodeTile rng g c x y).1 x y = Tile.fire ∨
    getTile (tryExplodeTile rng g c x y).1 x y = Tile.extraBombPowerup := by
  have hval : isValid g x y = true := by
    refine isValid_of_getTile_ne_sentinel g x y ?_
    rw [h]
    intro hq
    exact Tile.noConfusion hq
  simp only [tryExplodeTile, h, Tile.isExplodable, if_true, onDestroy]
  rw [getTile_setTile, if_pos ⟨rfl, rfl, hval⟩]
  cases hr : rng c
  · left; rw [if_neg (by simp [hr])]
  · right; rw [if_pos (by simp [hr])]

/-- The four axis-aligned neighbour positions of `(x, y)` probed by
`explode`. -/
abbrev plusNeighbor (x y x' y' : Int) : Prop :=
  (x' = x ∧ y' = y - 1) ∨ (x' = x ∧ y' = y + 1) ∨
  (x' = x - 1 ∧ y' = y) ∨ (x' = x + 1 ∧ y' = y)

/-- Claim C4: `explode (x, y)` invokes `onDestroy` on the origin
unconditionally (every non-explodable class has an empty `onDestroy`, so
the lack of an explodability check at the origin has no further
observable effect) and on each axis-aligned neighbour only if it is
explodable.  Concretely: every cell other than the origin and its four
axis-aligned neighbours is untouched (in particular diagonal neighbours
and any cell at distance greater than one); a non-explodable neighbour
(`Unbreakable`, any bomb stage, the powerup) is untouched, so no chain
reaction propagates through a neighbouring bomb; a monster neighbour is
destroyed to `Fire`; a `Stone` neighbour is destroyed to `Fire` or the
powerup. -/
theorem explode_plus_shape (rng : Nat → Bool) (g : Grid) (c : Nat) (x y : Int) :
    (∀ x' y' : Int, ¬(x' = x ∧ y' = y) → ¬plusNeighbor x y x' y' →
      getTile (explode rng g c x y).1 x' y' = getTile g x' y')
    ∧ (∀ x' y' : Int, plusNeighbor x y x' y' →
        (getTile g x' y').isExplodable = false →
        getTile (explode rng g c x y).1 x' y' = getTile g x' y')
    ∧ (∀ x' y' : Int, plusNeighbor x y x' y' →
        (getTile g x' y').isMonster = true →
        getTile (explode rng g c x y).1 x' y' = Tile.fire)
    ∧ (∀ x' y' : Int, plusNeighbor x y x' y' →
        getTile g x' y' = Tile.stone →
        getTile (explode rng g c x y).1 x' y' = Tile.fire ∨
        getTile (explode rng g c x y).1 x' y' = Tile.extraBombPowerup) := by
  obtain ⟨g1, c1, h1⟩ : ∃ a b, onDestroy rng (getTile g x y) g c x y = (a, b) :=
    ⟨_, _, rfl⟩
  obtain ⟨g2, c2, h2⟩ : ∃ a b, tryExplodeTile rng g1 c1 x (y - 1) = (a, b) :=
    ⟨_, _, rfl⟩
  obtain ⟨g3, c3, h3⟩ : ∃ a b, tryExplodeTile rng g2 c2 x (y + 1) = (a, b) :=
    ⟨_, _, rfl⟩
  obtain ⟨g4, c4, h4⟩ : ∃ a b, tryExplodeTile rng g3 c3 (x - 1) y = (a, b) :=
    ⟨_, _, rfl⟩
  have hex : explode rng g c x y = tryExplodeTile rng g4 c4 (x + 1) y := by
    simp only [explode, h1, h2, h3, h4]
  have f1 : ∀ a b : Int, ¬(a = x ∧ b = y) → getTile g1 a b = getTile g a b := by
    intro a b hab
    have hh := getTile_onDestroy_ne rng (getTile g x y) g c x y a b hab
    rw [h1] at hh
    exact hh
  have f2 : ∀ a b : Int, ¬(a = x ∧ b = y - 1) → getTile g2 a b = getTile g1 a b := by
    intro a b hab
    have hh := getTile_tryExplodeTile_ne rng g1 c1 x (y - 1) a b hab
    rw [h2] at hh
    exact hh
  have f3 : ∀ a b : Int, ¬(a = x ∧ b = y + 1) → getTile g3 a b = getTile g2 a b := by
    intro a b hab
    have hh := getTile_tryExplodeTile_ne rng g2 c2 x (y + 1) a b hab
    rw [h3] at hh
    exact hh
  have f4 : ∀ a b : Int, ¬(a = x - 1 ∧ b = y) → getTile g4 a b = getTile g3 a b := by
    intro a b hab
    have hh := getTile_tryExplodeTile_ne rng g3 c3 (x - 1) y a b hab
    rw [h4] at hh
    exact hh
  have f5 : ∀ a b : Int, ¬(a = x + 1 ∧ b = y) →
      getTile (explode rng g c x y).1 a b = getTile g4 a b := by
    intro a b hab
    rw [hex]
    exact getTile_tryExplodeTile_ne rng g4 c4 (x + 1) y a b hab
  refine ⟨?_, ?_, ?_, ?_⟩
  · intro x' y' h0 hp
    unfold plusNeighbor at hp
    rw [f5 x' y' (by tauto), f4 x' y' (by tauto), f3 x' y' (by tauto),
      f2 x' y' (by tauto), f1 x' y' h0]
  · intro x' y' hp hexp
    unfold plusNeighbor at hp
    rcases hp with ⟨hx', hy'⟩ | ⟨hx', hy'⟩ | ⟨hx', hy'⟩ | ⟨hx', hy'⟩ <;>
      rw [hx', hy'] at hexp ⊢
    · have e1 : getTile g1 x (y - 1) = getTile g x (y - 1) := f1 _ _ (by omega)
      have hh := tryExplodeTile_not_explodable rng g1 c1 x (y - 1)
        (by rw [e1]; exact hexp)
      rw [h2] at hh
      have e2 : g2 = g1 := congrArg Prod.fst hh
      rw [f5 _ _ (by omega), f4 _ _ (by omega), f3 _ _ (by omega), e2, e1]
    · have e1 : getTile g1 x (y + 1) = getTile g x (y + 1) := f1 _ _ (by omega)
      have e2 : getTile g2 x (y + 1) = getTile g1 x (y + 1) := f2 _ _ (by omega)
      have hh := tryExplodeTile_not_explodable rng g2 c2 x (y + 1)
        (by rw [e2, e1]; exact hexp)
      rw [h3] at hh
      have e3 : g3 = g2 := congrArg Prod.fst hh
      rw [f5 _ _ (by omega), f4 _ _ (by omega), e3, e2, e1]
    · have e1 : getTile g1 (x - 1) y = getTile g (x - 1) y := f1 _ _ (by omega)
      have e2 : getTile g2 (x - 1) y = getTile g1 (x - 1) y := f2 _ _ (by omega)
      have e3 : getTile g3 (x - 1) y = getTile g2 (x - 1) y := f3 _ _ (by omega)
      have hh := tryExplodeTile_not_explodable rng g3 c3 (x - 1) y
        (by rw [e3, e2, e1]; exact hexp)
      rw [h4] at hh
      have e4 : g4 = g3 := congrArg Prod.fst hh
      rw [f5 _ _ (by omega), e4, e3, e2, e1]
    · have e1 : getTile g1 (x + 1) y = getTile g (x + 1) y := f1 _ _ (by omega)
      have e2 : getTile g2 (x + 1) y = getTile g1 (x + 1) y := f2 _ _ (by omega)
      have e3 : getTile g3 (x + 1) y = getTile g2 (x + 1) y := f3 _ _ (by omega)
      have e4 : getTile g4 (x + 1) y = getTile g3 (x + 1) y := f4 _ _ (by omega)
      have hh := tryExplodeTile_not_explodable rng g4 c4 (x + 1) y
        (by rw [e4, e3, e2, e1]; exact hexp)
      rw [hex, hh]
      exact e4.trans (e3.trans (e2.trans e1))
  · intro x' y' hp hmon
    unfold plusNeighbor at hp
    rcases hp with ⟨hx', hy'⟩ | ⟨hx', hy'⟩ | ⟨hx', hy'⟩ | ⟨hx', hy'⟩ <;>
      rw [hx', hy'] at hmon ⊢
    · have e1 : getTile g1 x (y - 1) = getTile g x (y - 1) := f1 _ _ (by omega)
      have hm := getTile_tryExplodeTile_monster rng g1 c1 x (y - 1)
        (by rw [e1]; exact hmon)
      rw [h2] at hm
      rw [f5 _ _ (by omega), f4 _ _ (by omega), f3 _ _ (by omega)]
      exact hm
    · have e1 : getTile g1 x (y + 1) = getTile g x (y + 1) := f1 _ _ (by omega)
      have e2 : getTile g2 x (y + 1) = getTile g1 x (y + 1) := f2 _ _ (by omega)
      have hm := getTile_tryExplodeTile_monster rng g2 c2 x (y + 1)
        (by rw [e2, e1]; exact hmon)
      rw [h3] at hm
      rw [f5 _ _ (by omega), f4 _ _ (by omega)]
      exact hm
    · have e1 : getTile g1 (x - 1) y = getTile g (x - 1) y := f1 _ _ (by omega)
      have e2 : getTile g2 (x - 1) y = getTile g1 (x - 1) y := f2 _ _ (by omega)
      have e3 : getTile g3 (x - 1) y = getTile g2 (x - 1) y := f3 _ _ (by omega)
      have hm := getTile_tryExplodeTile_monster rng g3 c3 (x - 1) y
        (by rw [e3, e2, e1]; exact hmon)
      rw [h4] at hm
      rw [f5 _ _ (by omega)]
      exact hm
    · have e1 : getTile g1 (x + 1) y = getTile g (x + 1) y := f1 _ _ (by omega)
      have e2 : getTile g2 (x + 1) y = getTile g1 (x + 1) y := f2 _ _ (by omega)
      have e3 : getTile g3 (x + 1) y = getTile g2 (x + 1) y := f3 _ _ (by omega)
      have e4 : getTile g4 (x + 1) y = getTile g3 (x + 1) y := f4 _ _ (by omega)
      have hm := getTile_tryExplodeTile_monster rng g4 c4 (x + 1) y
        (by rw [e4, e3, e2, e1]; exact hmon)
      rw [hex]
      exact hm
  · intro x' y' hp hst
    unfold plusNeighbor at hp
    rcases hp with ⟨hx', hy'⟩ | ⟨hx', hy'⟩ | ⟨hx', hy'⟩ | ⟨hx', hy'⟩ <;>
      rw [hx', hy'] at hst ⊢
    · have e1 : getTile g1 x (y - 1) = getTile g x (y - 1) := f1 _ _ (by omega)
      have hs := getTile_tryExplodeTile_stone rng g1 c1 x (y - 1)
        (by rw [e1]; exact hst)
      rw [h2] at hs
      rw [f5 _ _ (by omega), f4 _ _ (by omega), f3 _ _ (by omega)]
      exact hs
    · have e1 : getTile g1 x (y + 1) = getTile g x (y + 1) := f1 _ _ (by omega)
      have e2 : getTile g2 x (y + 1) = getTile g1 x (y + 1) := f2 _ _ (by omega)
      have hs := getTile_tryExplodeTile_stone rng g2 c2 x (y + 1)
        (by rw [e2, e1]; exact hst)
      rw [h3] at hs
      rw [f5 _ _ (by omega), f4 _ _ (by omega)]
      exact hs
    · have e1 : getTile g1 (x - 1) y = getTile g (x - 1) y := f1 _ _ (by omega)
      have e2 : getTile g2 (x - 1) y = getTile g1 (x - 1) y := f2 _ _ (by omega)
      have e3 : getTile g3 (x - 1) y = getTile g2 (x - 1) y := f3 _ _ (by omega)
      have hs := getTile_tryExplodeTile_stone rng g3 c3 (x - 1) y
        (by rw [e3, e2, e1]; exact hst)
      rw [h4] at hs
      rw [f5 _ _ (by omega)]
      exact hs
    · have e1 : getTile g1 (x + 1) y = getTile g (x + 1) y := f1 _ _ (by omega)
      have e2 : getTile g2 (x + 1) y = getTile g1 (x + 1) y := f2 _ _ (by omega)
      have e3 : getTile g3 (x + 1) y = getTile g2 (x + 1) y := f3 _ _ (by omega)
      have e4 : getTile g4 (x + 1) y = getTile g3 (x + 1) y := f4 _ _ (by omega)
      have hs := getTile_tryExplodeTile_stone rng g4 c4 (x + 1) y
        (by rw [e4, e3, e2, e1]; exact hst)
      rw [hex]
      exact hs

/-! ### Instrumented pass: which updates a pass invokes

`runUpdatesT` is `runUpdates` instrumented to also record, in order, the
position and tile of every `update` invocation the pass performs.  Its
state component provably coincides with `runUpdates`, and its trace shows
that the invoked tiles are read from the snapshot alone. -/

def runUpdatesT (rng : Nat → Bool) (snap : Grid) :
    List (Int × Int) → Grid × Nat → (Grid × Nat) × List ((Int × Int) × Tile)
  | [], s => (s, [])
  | p :: rest, (g, c) =>
      let r := runUpdatesT rng snap rest
        (updateTile rng (getTile snap p.1 p.2) g c p.1 p.2)
      (r.1, (p, getTile snap p.1 p.2) :: r.2)

theorem runUpdatesT_fst (rng : Nat → Bool) (snap : Grid) :
    ∀ (l : List (Int × Int)) (s : Grid × Nat),
      (runUpdatesT rng snap l s).1 = runUpdates rng snap l s := by
  intro l
  induction l with
  | nil => intro s; rfl
  | cons p rest ih =>
    intro s
    obtain ⟨g, c⟩ := s
    simp only [runUpdatesT, runUpdates]
    exact ih _

theorem runUpdatesT_snd (rng : Nat → Bool) (snap : Grid) :
    ∀ (l : List (Int × Int)) (s : Grid × Nat),
      (runUpdatesT rng snap l s).2 =
        l.map (fun p => (p, getTile snap p.1 p.2)) := by
  intro l
  induction l with
  | nil => intro s; rfl
  | cons p rest ih =>
    intro s
    obtain ⟨g, c⟩ := s
    simp only [runUpdatesT, List.map_cons, List.cons.injEq]
    exact ⟨trivial, ih _⟩

theorem gridPositions_nodup (g : Grid) : (gridPositions g).Nodup := by
  unfold gridPositions
  rw [List.nodup_flatten]
  constructor
  · intro l hl
    rw [List.mem_map] at hl
    obtain ⟨y, _, rfl⟩ := hl
    have hinj : Function.Injective (fun x : Nat => ((x : Int), (y : Int))) := by
      intro a b hab
      simpa using congrArg Prod.fst hab
    exact List.Nodup.map hinj (List.nodup_range _)
  · rw [List.pairwise_map]
    refine (List.pairwise_lt_range g.length).imp ?_
    intro a b hlt p hp hq
    rw [List.mem_map] at hp hq
    obtain ⟨xa, _, rfl⟩ := hp
    obtain ⟨xb, _, hpq⟩ := hq
    have hsnd : (b : Int) = (a : Int) := congrArg Prod.snd hpq
    omega

/-! ### Monster facings and player move sequences -/

/-- The facing of each stable directional monster variant: the offset its
`move` probes and the state written at the destination on success. -/
def monsterFacing : Tile → Option (Int × Int × Tile)
  | .monsterRight => some (1, 0, .tmpMonsterRight)
  | .monsterDown => some (0, 1, .tmpMonsterDown)
  | .monsterLeft => some (-1, 0, .monsterLeft)
  | .monsterUp => some (0, -1, .monsterUp)
  | _ => none

/-- A sequence of `Player.move` calls against a fixed grid. -/
def moveSeq (g : Grid) : List (Int × Int) → Player → Player
  | [], p => p
  | d :: rest, p => moveSeq g rest (p.move g d.1 d.2)

theorem Player_move_stays_valid (g : Grid) (p : Player) (dx dy : Int)
    (h : isValid g p.x p.y = true) :
    isValid g (p.move g dx dy).x (p.move g dx dy).y = true := by
  unfold Player.move
  split
  · rename_i hw
    by_contra hnv
    have hs : getTile g (p.x + dx) (p.y + dy) = Tile.unbreakable := by
      unfold getTile
      rw [if_neg hnv]
    rw [hs] at hw
    exact Bool.noConfusion hw
  · exact h

/-! ### The claims -/

/-- Claim C1 (counterexample): a single `updateTiles` pass is not the
simultaneous update.  On the grid `[[Fire, MonsterLeft]]` the real pass
lets the monster move left, because the `Fire` at `(0, 0)` decayed to
`Air` earlier in the same pass and the monster's `isAir` probe reads the
live grid; the simultaneous pass reads the pre-tick snapshot, blocks the
move and turns the monster instead. -/
theorem updateTiles_ne_simultaneous :
    (updateTiles rngFalse [[Tile.fire, Tile.monsterLeft]] 0).1 ≠
      (updateTilesSim rngFalse [[Tile.fire, Tile.monsterLeft]] 0).1 := by
  decide

/-- Claim C1 (amended): the snapshot of `updateTiles` determines only
which tiles' `update` methods run; each transition decision reads the
live grid, so a write made earlier in the same pass can legalise a move
the pre-tick state would block.  Concretely, on `[[Fire, MonsterLeft]]`
the cell `(0, 0)` holds `Fire` at tick start, yet the monster's move onto
it succeeds (the pass yields `[[MonsterLeft, Air]]`), while the
spec-modelled simultaneous pass yields `[[Air, MonsterUp]]`. -/
theorem updateTiles_decisions_read_live_grid :
    getTile [[Tile.fire, Tile.monsterLeft]] 0 0 = Tile.fire
    ∧ (updateTiles rngFalse [[Tile.fire, Tile.monsterLeft]] 0).1
        = [[Tile.monsterLeft, Tile.air]]
    ∧ (updateTilesSim rngFalse [[Tile.fire, Tile.monsterLeft]] 0).1
        = [[Tile.air, Tile.monsterUp]] := by
  exact ⟨by decide, by decide, by decide⟩

/-- Claim C2 (code bug): the fuse advances `Bomb → BombClose →
BombReallyClose` on the first two ticks and the third tick triggers the
explosion (here shown destroying both `Stone` neighbours), but the
origin cell still holds `BombReallyClose` afterwards: `BombReallyClose`
inherits the empty `BaseTile.onDestroy`, and its `nextState(): Fire` is
never invoked, so instead of becoming `Fire` the cell re-explodes on
every subsequent tick. -/
theorem bombReallyClose_never_becomes_fire :
    (updateTiles rngFalse [[Tile.bomb]] 0).1 = [[Tile.bombClose]]
    ∧ (updateTiles rngFalse [[Tile.bombClose]] 0).1 = [[Tile.bombReallyClose]]
    ∧ (updateTiles rngFalse [[Tile.bombReallyClose]] 0).1
        = [[Tile.bombReallyClose]]
    ∧ (updateTiles rngFalse [[Tile.stone, Tile.bombReallyClose, Tile.stone]] 0).1
        = [[Tile.fire, Tile.bombReallyClose, Tile.fire]]
    ∧ Tile.bombReallyClose ≠ Tile.fire := by
  exact ⟨by decide, by decide, by decide, by decide, by decide⟩

/-- Claim C3 (counterexample): `Air` does not override `onDestroy`, yet
destroying an in-bounds `Air` cell leaves it `Air` — the inherited
default `BaseTile.onDestroy` is an empty method, not
replace-with-`Fire`. -/
theorem onDestroy_no_override_not_fire :
    overridesOnDestroy Tile.air = false
    ∧ isValid [[Tile.air]] 0 0 = true
    ∧ getTile (onDestroy rngFalse Tile.air [[Tile.air]] 0 0 0).1 0 0 = Tile.air
    ∧ Tile.air ≠ Tile.fire := by
  exact ⟨rfl, by decide, by decide, by decide⟩

/-- Claim C3 (amended): the inherited default `onDestroy` is a no-op:
every tile variant that does not override it (`Air`, `BombReallyClose`,
`Fire`) leaves the whole grid (and the random counter) unchanged;
replacement behaviour exists only in overrides (`Stone`'s powerup roll
and the monsters' `Fire` drop), while `Unbreakable`, the powerup, `Bomb`
and `BombClose` override it with explicit no-ops. -/
theorem onDestroy_no_override_noop (rng : Nat → Bool) (t : Tile) (g : Grid)
    (c : Nat) (x y : Int) (h : overridesOnDestroy t = false) :
    onDestroy rng t g c x y = (g, c) := by
  cases t <;> first | rfl | exact Bool.noConfusion h

/-- Witness for `onDestroy_no_override_noop` at `Fire` on a concrete
grid. -/
theorem onDestroy_no_override_noop_witness :
    overridesOnDestroy Tile.fire = false
    ∧ onDestroy rngFalse Tile.fire [[Tile.fire]] 0 0 0 = ([[Tile.fire]], 0) :=
  ⟨rfl, onDestroy_no_override_noop rngFalse Tile.fire [[Tile.fire]] 0 0 0 rfl⟩

/-- A concrete arena for the explosion witness: `BombReallyClose` origin
at `(1, 1)` with an `Unbreakable` above, a `Stone` to the left, a monster
to the right and `Air` elsewhere. -/
def exGridC4 : Grid :=
  [[Tile.air, Tile.unbreakable, Tile.air],
   [Tile.stone, Tile.bombReallyClose, Tile.monsterUp],
   [Tile.air, Tile.air, Tile.air]]

/-- Witness for `explode_plus_shape`: in `exGridC4`, exploding `(1, 1)`
leaves the diagonal `(0, 0)` and the non-explodable `Unbreakable` at
`(1, 0)` unchanged, destroys the monster at `(2, 1)` to `Fire`, and
destroys the `Stone` at `(0, 1)` to `Fire` or the powerup. -/
theorem explode_plus_shape_witness :
    getTile (explode rngFalse exGridC4 0 1 1).1 0 0 = getTile exGridC4 0 0
    ∧ getTile (explode rngFalse exGridC4 0 1 1).1 1 0 = getTile exGridC4 1 0
    ∧ getTile (explode rngFalse exGridC4 0 1 1).1 2 1 = Tile.fire
    ∧ (getTile (explode rngFalse exGridC4 0 1 1).1 0 1 = Tile.fire ∨
        getTile (explode rngFalse exGridC4 0 1 1).1 0 1 = Tile.extraBombPowerup) :=
  ⟨(explode_plus_shape rngFalse exGridC4 0 1 1).1 0 0 (by decide) (by decide),
   (explode_plus_shape rngFalse exGridC4 0 1 1).2.1 1 0 (by decide) (by decide),
   (explode_plus_shape rngFalse exGridC4 0 1 1).2.2.1 2 1 (by decide) (by decide),
   (explode_plus_shape rngFalse exGridC4 0 1 1).2.2.2 0 1 (by decide) (by decide)⟩

/-- Claim C5: for every out-of-bounds position, `getTile` returns the
`Unbreakable` sentinel — neither walkable, nor explodable, nor `Air` —
and `setTile` returns the grid unchanged for every tile value. -/
theorem out_of_bounds_access (g : Grid) (x y : Int)
    (h : isValid g x y = false) :
    getTile g x y = Tile.unbreakable
    ∧ (getTile g x y).isWalkable = false
    ∧ (getTile g x y).isExplodable = false
    ∧ (getTile g x y).isAir = false
    ∧ ∀ t : Tile, setTile g x y t = g := by
  have hg : getTile g x y = Tile.unbreakable := by
    unfold getTile
    rw [if_neg (by simp [h])]
  refine ⟨hg, by rw [hg]; rfl, by rw [hg]; rfl, by rw [hg]; rfl, ?_⟩
  intro t
  unfold setTile
  rw [if_neg (by simp [h])]

/-- Witness for `out_of_bounds_access`: column 1 does not exist in a
one-cell grid. -/
theorem out_of_bounds_access_witness :
    isValid [[Tile.air]] 1 0 = false
    ∧ getTile [[Tile.air]] 1 0 = Tile.unbreakable
    ∧ setTile [[Tile.air]] 1 0 Tile.bomb = [[Tile.air]] :=
  ⟨by decide, (out_of_bounds_access [[Tile.air]] 1 0 (by decide)).1,
   (out_of_bounds_access [[Tile.air]] 1 0 (by decide)).2.2.2.2 Tile.bomb⟩

/-- Claim C6: `placeBomb` writes a `Bomb` at the player's cell exactly
when the bomb count is positive and the cell is `Air` (in that case the
cell is necessarily in bounds, so the write lands); otherwise the grid is
returned unchanged; and no input command — bomb placement included —
ever changes the player's bomb count. -/
theorem placeBomb_spec (p : Player) (g : Grid) :
    (0 < p.bombCount ∧ (getTile g p.x p.y).isAir = true →
      placeBomb p g = setTile g p.x p.y Tile.bomb
      ∧ getTile (placeBomb p g) p.x p.y = Tile.bomb)
    ∧ (¬(0 < p.bombCount ∧ (getTile g p.x p.y).isAir = true) →
      placeBomb p g = g)
    ∧ ∀ (i : Input) (s : GameSt),
      (handleInput i s).player.bombCount = s.player.bombCount := by
  refine ⟨?_, ?_, ?_⟩
  · intro h
    have hval : isValid g p.x p.y = true := by
      refine isValid_of_getTile_ne_sentinel g p.x p.y ?_
      intro hq
      rw [hq] at h
      exact Bool.noConfusion h.2
    have h1 : placeBomb p g = setTile g p.x p.y Tile.bomb := by
      unfold placeBomb
      rw [if_pos h]
    refine ⟨h1, ?_⟩
    rw [h1, getTile_setTile, if_pos ⟨rfl, rfl, hval⟩]
  · intro h
    unfold placeBomb
    rw [if_neg h]
  · intro i s
    cases i <;> simp only [handleInput] <;>
      first
      | rfl
      | (unfold Player.move; split <;> rfl)

/-- Witness for `placeBomb_spec`: with a bomb in stock and `Air`
underfoot the bomb lands; with zero bombs the grid is unchanged. -/
theorem placeBomb_spec_witness :
    (placeBomb ⟨0, 0, 1⟩ [[Tile.air]] = setTile [[Tile.air]] 0 0 Tile.bomb
      ∧ getTile (placeBomb ⟨0, 0, 1⟩ [[Tile.air]]) 0 0 = Tile.bomb)
    ∧ placeBomb ⟨0, 0, 0⟩ [[Tile.air]] = [[Tile.air]] :=
  ⟨(placeBomb_spec ⟨0, 0, 1⟩ [[Tile.air]]).1 (by decide),
   (placeBomb_spec ⟨0, 0, 0⟩ [[Tile.air]]).2.1 (by decide)⟩

/-- Claim C7: a directional monster whose facing-direction destination is
not `Air` overwrites its own cell with the next facing in the fixed
rotation `Right → Down → Left → Up → Right` and touches no other cell
(so its position is unchanged). -/
theorem blocked_monster_turns (rng : Nat → Bool) (g : Grid) (c : Nat)
    (x y dx dy : Int) (t arr : Tile)
    (hf : monsterFacing t = some (dx, dy, arr))
    (hb : (getTile g (x + dx) (y + dy)).isAir = false) :
    updateTile rng t g c x y = (setTile g x y t.nextDirection, c)
    ∧ Tile.nextDirection Tile.monsterRight = Tile.monsterDown
    ∧ Tile.nextDirection Tile.monsterDown = Tile.monsterLeft
    ∧ Tile.nextDirection Tile.monsterLeft = Tile.monsterUp
    ∧ Tile.nextDirection Tile.monsterUp = Tile.monsterRight
    ∧ ∀ x' y' : Int, ¬(x' = x ∧ y' = y) →
      getTile (updateTile rng t g c x y).1 x' y' = getTile g x' y' := by
  have hmain : updateTile rng t g c x y = (setTile g x y t.nextDirection, c) := by
    cases t
    case monsterRight =>
      simp only [monsterFacing, Option.some.injEq, Prod.mk.injEq] at hf
      obtain ⟨h1, h2, _⟩ := hf
      subst h1
      subst h2
      have hn : tryMove g x y 1 0 Tile.tmpMonsterRight = none := by
        unfold tryMove
        rw [if_neg]
        intro hq
        rw [hb] at hq
        exact Bool.noConfusion hq
      simp only [updateTile, monsterMove, hn]
    case monsterDown =>
      simp only [monsterFacing, Option.some.injEq, Prod.mk.injEq] at hf
      obtain ⟨h1, h2, _⟩ := hf
      subst h1
      subst h2
      have hn : tryMove g x y 0 1 Tile.tmpMonsterDown = none := by
        unfold tryMove
        rw [if_neg]
        intro hq
        rw [hb] at hq
        exact Bool.noConfusion hq
      simp only [updateTile, monsterMove, hn]
    case monsterLeft =>
      simp only [monsterFacing, Option.some.injEq, Prod.mk.injEq] at hf
      obtain ⟨h1, h2, _⟩ := hf
      subst h1
      subst h2
      have hn : tryMove g x y (-1) 0 Tile.monsterLeft = none := by
        unfold tryMove
        rw [if_neg]
        intro hq
        rw [hb] at hq
        exact Bool.noConfusion hq
      simp only [updateTile, monsterMove, hn]
    case monsterUp =>
      simp only [monsterFacing, Option.some.injEq, Prod.mk.injEq] at hf
      obtain ⟨h1, h2, _⟩ := hf
      subst h1
      subst h2
      have hn : tryMove g x y 0 (-1) Tile.monsterUp = none := by
        unfold tryMove
        rw [if_neg]
        intro hq
        rw [hb] at hq
        exact Bool.noConfusion hq
      simp only [updateTile, monsterMove, hn]
    all_goals exact Option.noConfusion hf
  refine ⟨hmain, rfl, rfl, rfl, rfl, ?_⟩
  intro x' y' hne
  rw [hmain]
  show getTile (setTile g x y t.nextDirection) x' y' = getTile g x' y'
  rw [getTile_setTile, if_neg (by tauto)]

/-- Witness for `blocked_monster_turns`: a `MonsterRight` blocked by an
`Unbreakable` on its right turns to `MonsterDown` in place. -/
theorem blocked_monster_turns_witness :
    monsterFacing Tile.monsterRight = some (1, 0, Tile.tmpMonsterRight)
    ∧ (getTile [[Tile.monsterRight, Tile.unbreakable]] (0 + 1) (0 + 0)).isAir
        = false
    ∧ updateTile rngFalse Tile.monsterRight
        [[Tile.monsterRight, Tile.unbreakable]] 0 0 0
        = (setTile [[Tile.monsterRight, Tile.unbreakable]] 0 0 Tile.monsterDown,
            0) :=
  ⟨rfl, by decide,
   (blocked_monster_turns rngFalse [[Tile.monsterRight, Tile.unbreakable]] 0
      0 0 1 0 Tile.monsterRight Tile.tmpMonsterRight rfl (by decide)).1⟩

/-- Claim C8: a player standing on `Fire` or on any monster variant makes
the collision check set the game-over flag, and from any game-over state
every future frame is the identity — `updateTiles` is never called again,
the grid is never mutated again, and no queued input is applied. -/
theorem gameOver_contact_halts :
    (∀ s : GameSt,
      (getTile s.grid s.player.x s.player.y).isMonster = true ∨
        getTile s.grid s.player.x s.player.y = Tile.fire →
      (checkCollision s).gameOver = true)
    ∧ ∀ (rng : Nat → Bool) (n : Nat) (s : GameSt), s.gameOver = true →
      (frame rng)^[n] s = s := by
  constructor
  · intro s h
    unfold checkCollision
    rcases h with hm | hf
    · cases hq : getTile s.grid s.player.x s.player.y <;> rw [hq] at hm <;>
        first
        | exact Bool.noConfusion hm
        | rfl
    · rw [hf]
      rfl
  · intro rng n
    induction n with
    | zero => intro s _; rfl
    | succ m ih =>
      intro s h
      rw [Function.iterate_succ_apply]
      have hfr : frame rng s = s := by
        unfold frame
        rw [if_pos h]
      rw [hfr]
      exact ih s h

/-- A game state whose player stands on `Fire`. -/
def sFireC8 : GameSt :=
  { grid := [[Tile.fire]], player := ⟨0, 0, 1⟩, delay := 15, initialDelay := 15,
    gameOver := false, tickReady := false, inputs := [], ctr := 0 }

/-- A game-over state with a queued input. -/
def sOverC8 : GameSt :=
  { grid := [[Tile.air]], player := ⟨0, 0, 1⟩, delay := 15, initialDelay := 15,
    gameOver := true, tickReady := false, inputs := [Input.up], ctr := 0 }

/-- Witness for `gameOver_contact_halts`: standing on `Fire` flips the
flag, and three frames after game over change nothing. -/
theorem gameOver_contact_halts_witness :
    (checkCollision sFireC8).gameOver = true
    ∧ (frame rngFalse)^[3] sOverC8 = sOverC8 :=
  ⟨gameOver_contact_halts.1 sFireC8 (Or.inr (by decide)),
   gameOver_contact_halts.2 rngFalse 3 sOverC8 rfl⟩

/-- Claim C9: one `updateTiles` pass invokes `update` exactly once for
each cell of the pre-pass grid, always on the tile the snapshot holds
there (the trace of invocations is the duplicate-free row-major list of
pre-pass cells), and never on a tile written during the pass: the monster
that moved right is not re-updated after relocating (otherwise its
transient state would already have resolved), and the `Fire` an explosion
writes into a cell later in iteration order survives the pass
undecayed. -/
theorem updateTiles_trace_snapshot (rng : Nat → Bool) (g : Grid) (c : Nat) :
    (runUpdatesT rng g (gridPositions g) (g, c)).1 = updateTiles rng g c
    ∧ (runUpdatesT rng g (gridPositions g) (g, c)).2
        = (gridPositions g).map (fun p => (p, getTile g p.1 p.2))
    ∧ (gridPositions g).Nodup
    ∧ (updateTiles rngFalse [[Tile.monsterRight, Tile.air, Tile.air]] 0).1
        = [[Tile.air, Tile.tmpMonsterRight, Tile.air]]
    ∧ (updateTiles rngFalse [[Tile.bombReallyClose, Tile.stone]] 0).1
        = [[Tile.bombReallyClose, Tile.fire]] :=
  ⟨runUpdatesT_fst rng g (gridPositions g) (g, c),
   runUpdatesT_snd rng g (gridPositions g) (g, c),
   gridPositions_nodup g, by decide, by decide⟩

/-- Claim C10: a player starting in bounds stays in bounds under any
sequence of `move` calls: an out-of-bounds destination reads as the
`Unbreakable` sentinel, which is not walkable, so such a move is always
blocked. -/
theorem player_stays_in_bounds (g : Grid) (p : Player) (ds : List (Int × Int))
    (h : isValid g p.x p.y = true) :
    isValid g (moveSeq g ds p).x (moveSeq g ds p).y = true := by
  induction ds generalizing p with
  | nil => exact h
  | cons d rest ih => exact ih _ (Player_move_stays_valid g p d.1 d.2 h)

/-- Witness for `player_stays_in_bounds` on a 1×2 grid with moves that
attempt to leave it. -/
theorem player_stays_in_bounds_witness :
    isValid [[Tile.air, Tile.air]] 0 0 = true
    ∧ isValid [[Tile.air, Tile.air]]
        (moveSeq [[Tile.air, Tile.air]] [(1, 0), (1, 0), (0, -3)] ⟨0, 0, 1⟩).x
        (moveSeq [[Tile.air, Tile.air]] [(1, 0), (1, 0), (0, -3)] ⟨0, 0, 1⟩).y
      = true :=
  ⟨by decide,
   player_stays_in_bounds [[Tile.air, Tile.air]] ⟨0, 0, 1⟩
     [(1, 0), (1, 0), (0, -3)] (by decide)⟩

end Bombguy
